import Mathlib

/-!
# Jellyfin "latest items" dashboard: the fetch-and-cache core

A shallow embedding of `fetchLatest` (src/main.go, lines 49-113), of the `Card`
struct with its JSON tags (lines 31-39) and of the state they touch, followed by
the properties proved about them.

Modelling conventions.

* A Go `string` is a finite sequence of bytes: `len` is the number of bytes and
  `s[:n]` keeps the first `n` bytes. Source literals are turned into their UTF-8
  bytes by `go`.
* A Go slice value is `Option (List α)`; `none` is the `nil` slice.
* A `time.Time` produced by `time.Now()` carries a monotonic reading; it is
  modelled by that reading, an integer number of nanoseconds. `time.Since` is
  the saturating difference of two readings (`time.Duration` is an int64).
* A `float64` is its IEEE-754 binary64 bit pattern.
* One call of `fetchLatest` is modelled as it runs when no other goroutine
  touches the cache in between (the mutex sections are atomic steps). What the
  outside world supplies during the call (clock readings, the environment
  variable, the verdict of `http.NewRequest`, the HTTP exchange and the JSON
  decoder) is collected in `Ambient`; what the call can change (the cache map,
  the requests handed to the HTTP client, standard output) is `World`.
-/

namespace Jellyfin

/-! ## Data model -/

/-- Go strings are byte sequences. -/
abbrev GoString := List UInt8

/-- UTF-8 bytes of a string literal of the source. -/
def go (s : String) : GoString := s.toUTF8.data.toList

/-- Go slice values; `none` is the nil slice. -/
abbrev Slice (α : Type) := Option (List α)

/-- Go `error` values, identified with their message. -/
abbrev GoError := GoString

/-- Bit pattern of a Go `float64` (IEEE-754 binary64). -/
structure Float64 where
  bits : Fin (2 ^ 64)
  deriving DecidableEq

/-- The Go comparison `f == 0`: true exactly for the two zeros `+0` and `-0`. -/
def Float64.eqZero (f : Float64) : Bool := f.bits.val % 2 ^ 63 == 0

/-- Whether a float64 is finite (neither NaN nor infinite): its exponent field is
not all ones. Every float64 the JSON decoder yields is finite. -/
def Float64.isFinite (f : Float64) : Bool := (f.bits.val / 2 ^ 52) % 2 ^ 11 != 2047

/-- The text `strconv.FormatFloat` gives for a float64 that is not finite. -/
def Float64.nonFiniteText (f : Float64) : GoString :=
  if f.bits.val % 2 ^ 52 != 0 then go "NaN"
  else if f.bits.val / 2 ^ 63 == 1 then go "-Inf"
  else go "+Inf"

/-- The float64 constant `0`. -/
def Float64.zero : Float64 := ⟨0⟩

/-- The float64 constant `8.5`, that is `0x4021000000000000`. -/
def Float64.eightAndHalf : Float64 := ⟨0x4021000000000000⟩

/-- Largest `time.Duration`. -/
def maxDuration : Int := 2 ^ 63 - 1

/-- Smallest `time.Duration`. -/
def minDuration : Int := -(2 ^ 63)

/-- The constant `time.Second`, in nanoseconds. -/
def Second : Int := 1000000000

/-- Value of `time.Since(t)` when the clock reads `now`: the difference, saturated
to the range of `time.Duration`. -/
def timeSince (now t : Int) : Int :=
  let d := now - t
  if d > maxDuration then maxDuration
  else if d < minDuration then minDuration
  else d

/-- The struct `JellyfinItem` (lines 20-29). `Type_` is the field `Type`. -/
structure JellyfinItem where
  Id : GoString
  Name : GoString
  Type_ : GoString
  SeriesId : GoString
  ImageTags : List (GoString × GoString)
  CommunityRating : Float64
  OfficialRating : GoString
  PremiereDate : GoString
  deriving DecidableEq

/-- The struct `Card` (lines 31-39). -/
structure Card where
  Title : GoString
  Subtitle : GoString
  Image : GoString
  Href : GoString
  Rating : Float64
  Year : GoString
  ContentRating : GoString
  deriving DecidableEq

/-- The struct `cacheEntry` (lines 41-44). -/
structure cacheEntry where
  Data : Slice Card
  Time : Int
  deriving DecidableEq

/-- The package variables read by `fetchLatest` (lines 13-18); `main` sets them
once from the environment. -/
structure Globals where
  jellyfin : GoString
  token : GoString
  imageSize : GoString

/-- An HTTP request as `fetchLatest` builds it: method, URL and header map. -/
structure Request where
  method : GoString
  url : GoString
  header : List (GoString × GoString)
  deriving DecidableEq

/-- What `http.DefaultClient.Do` followed by `json.NewDecoder(resp.Body).Decode`
yields for a request. -/
inductive Exchange where
  | doFailed (err : GoError)
  | decodeFailed (err : GoError)
  | decoded (items : List JellyfinItem)

/-- What the outside world supplies during one call of `fetchLatest`. -/
structure Ambient where
  /-- Clock reading taken by `time.Since` at line 51. -/
  sinceClock : Int
  /-- Clock reading taken by `time.Now()` at line 109. -/
  storeClock : Int
  /-- Value of `os.Getenv("JELLYFIN_USERID")`, empty when the variable is unset. -/
  getenvUserID : GoString
  /-- Whether `http.NewRequest("GET", url, nil)` accepts the URL. -/
  newRequestOK : GoString → Bool
  /-- Answer of the upstream server and the decoder to a request. -/
  exchange : Request → Exchange

/-- The state a call of `fetchLatest` can change. -/
structure World where
  /-- The package variable `cache` (line 46). -/
  cache : GoString → Option cacheEntry
  /-- Requests handed to `http.DefaultClient.Do`, oldest first. -/
  requests : List Request
  /-- Lines written to standard output, oldest first. -/
  stdout : List GoString

/-- How a call of `fetchLatest` ends: it returns the pair `(cards, err)`, or it
panics (nil dereference at line 70 when `http.NewRequest` gave no request). -/
inductive Outcome where
  | returned (cards : Slice Card) (err : Option GoError)
  | panicked
  deriving DecidableEq

/-! ## The transformation (loop body, lines 85-105) -/

/-- Image identifier chosen at lines 85-90. -/
def imageIDOf (i : JellyfinItem) : GoString :=
  let imageID := i.Id
  if i.Type_ = go "Episode" ∧ i.SeriesId ≠ [] then i.SeriesId else imageID

/-- Year computed at lines 92-95. -/
def yearOf (i : JellyfinItem) : GoString :=
  let year := []
  if i.PremiereDate.length ≥ 4 then i.PremiereDate.take 4 else year

/-- Card appended by one iteration of the loop (lines 85-105). -/
def cardOf (g : Globals) (i : JellyfinItem) : Card :=
  { Title := i.Name
    Subtitle := i.Type_
    Image := g.jellyfin ++ go "/Items/" ++ imageIDOf i ++ go "/Images/Primary" ++ g.imageSize
    Href := g.jellyfin ++ go "/web/index.html#!/details?id=" ++ i.Id
    Rating := i.CommunityRating
    Year := yearOf i
    ContentRating := i.OfficialRating }

/-- The loop of lines 83-106: `out` starts empty and every item appends its card. -/
def buildCards (g : Globals) (items : List JellyfinItem) : List Card :=
  items.foldl (fun out i => out ++ [cardOf g i]) []

/-! ## The upstream request (lines 64-70) -/

/-- URL built at lines 64-67. -/
def requestURL (g : Globals) (userID filter : GoString) : GoString :=
  let url := g.jellyfin ++ go "/Users/" ++ userID ++ go "/Items/Latest?Limit=20"
  if filter ≠ [] then url ++ go "&IncludeItemTypes=" ++ filter else url

/-- Request built at lines 69-70. -/
def buildRequest (g : Globals) (url : GoString) : Request :=
  { method := go "GET", url := url, header := [(go "X-Emby-Token", g.token)] }

/-! ## fetchLatest (lines 49-113) -/

/-- The error made by `fmt.Errorf` at line 61. -/
def errUserIDUnset : GoError := go "JELLYFIN_USERID environment variable is not set"

/-- The entry of the cache for `filter` when line 51 accepts it: present and
`time.Since(c.Time) < 60*time.Second`. -/
def freshEntry (w : World) (now : Int) (filter : GoString) : Option cacheEntry :=
  match w.cache filter with
  | some c => if timeSince now c.Time < 60 * Second then some c else none
  | none => none

/-- The part of `fetchLatest` after the cache check (lines 57-112): the attempt to
fetch from upstream, transform and store. -/
def refresh (g : Globals) (a : Ambient) (filter : GoString) (w : World) :
    Outcome × World :=
  let userID := a.getenvUserID
  let w := { w with stdout := w.stdout ++ [go "userID: " ++ userID ++ go "\n"] }
  if userID = [] then
    (.returned none (some errUserIDUnset), w)
  else
    let url := requestURL g userID filter
    if a.newRequestOK url = false then
      (.panicked, w)
    else
      let req := buildRequest g url
      let w := { w with requests := w.requests ++ [req] }
      match a.exchange req with
      | .doFailed err => (.returned none (some err), w)
      | .decodeFailed err => (.returned none (some err), w)
      | .decoded items =>
        let out := buildCards g items
        let w := { w with
          cache := fun k => if k = filter then some ⟨some out, a.storeClock⟩ else w.cache k }
        (.returned (some out) none, w)

/-- The function `fetchLatest` (lines 49-113). -/
def fetchLatest (g : Globals) (a : Ambient) (filter : GoString) (w : World) :
    Outcome × World :=
  match freshEntry w a.sinceClock filter with
  | some c => (.returned c.Data none, w)
  | none => refresh g a filter w

/-! ## JSON encoding of a Card (struct tags of lines 31-39, `encoding/json`) -/

/-- A JSON value as the encoder receives it from a `Card` field. -/
inductive JSONValue where
  | str (s : GoString)
  | num (f : Float64)
  deriving DecidableEq

/-- A struct tag: the key and whether `omitempty` is set. -/
structure FieldTag where
  key : GoString
  omitempty : Bool

/-- The fields of `Card` in declaration order, each with its tag. -/
def Card.fields (c : Card) : List (FieldTag × JSONValue) :=
  [ (⟨go "title", false⟩, .str c.Title),
    (⟨go "subtitle", false⟩, .str c.Subtitle),
    (⟨go "image", false⟩, .str c.Image),
    (⟨go "href", false⟩, .str c.Href),
    (⟨go "rating", true⟩, .num c.Rating),
    (⟨go "year", true⟩, .str c.Year),
    (⟨go "contentRating", true⟩, .str c.ContentRating) ]

/-- The encoder's empty test: a string of length zero, a number equal to 0. -/
def isEmptyValue : JSONValue → Bool
  | .str s => s.length == 0
  | .num f => f.eqZero

/-- The encoder's error for a number that is NaN or infinite. -/
def unsupportedValue (f : Float64) : GoError :=
  go "json: unsupported value: " ++ f.nonFiniteText

/-- Encoding of one field value: a string is always written, a number only when
it is finite. -/
def encodeValue : JSONValue → Except GoError JSONValue
  | .str s => .ok (.str s)
  | .num f => if f.isFinite then .ok (.num f) else .error (unsupportedValue f)

/-- The struct encoder: the fields in order, skipping a field whose tag has
`omitempty` and whose value is empty, stopping at the first value that cannot be
encoded. -/
def encodeFields :
    List (FieldTag × JSONValue) → Except GoError (List (GoString × JSONValue))
  | [] => .ok []
  | (t, v) :: rest =>
    if t.omitempty && isEmptyValue v then encodeFields rest
    else
      match encodeValue v with
      | .error e => .error e
      | .ok v' =>
        match encodeFields rest with
        | .error e => .error e
        | .ok members => .ok ((t.key, v') :: members)

/-- The members of the JSON object the encoder writes for a card, or its error. -/
def marshalCard (c : Card) : Except GoError (List (GoString × JSONValue)) :=
  encodeFields c.fields

/-- Keys of a JSON object. -/
def jsonKeys (obj : List (GoString × JSONValue)) : List GoString := obj.map Prod.fst

/-! ## Concrete inputs used to instantiate the theorems -/

/-- A configuration: base URL, token and poster size suffix. -/
def sampleGlobals : Globals :=
  { jellyfin := go "http://jf:8096", token := go "secret", imageSize := go "?maxWidth=300" }

/-- A movie with a rating of 8.5, released in 1995. -/
def movieItem : JellyfinItem :=
  { Id := go "M1", Name := go "Heat", Type_ := go "Movie", SeriesId := [],
    ImageTags := [(go "Primary", go "abc")], CommunityRating := Float64.eightAndHalf,
    OfficialRating := go "R", PremiereDate := go "1995-12-15T00:00:00.0000000Z" }

/-- An episode of the series S1, without rating and without premiere date. -/
def episodeItem : JellyfinItem :=
  { Id := go "E1", Name := go "Pilot", Type_ := go "Episode", SeriesId := go "S1",
    ImageTags := [], CommunityRating := Float64.zero,
    OfficialRating := [], PremiereDate := [] }

/-- An ambient with the given clock readings, user identifier and exchange, in
which `http.NewRequest` accepts every URL. -/
def ambientOf (since store : Int) (userID : GoString) (ex : Exchange) : Ambient :=
  { sinceClock := since, storeClock := store, getenvUserID := userID,
    newRequestOK := fun _ => true, exchange := fun _ => ex }

/-- The state at process start: empty cache, nothing requested or printed. -/
def emptyWorld : World := { cache := fun _ => none, requests := [], stdout := [] }

/-- The entry stored for the filter Movie in `warmWorld`, fetched at time 0. -/
def warmEntry : cacheEntry := { Data := some [cardOf sampleGlobals movieItem], Time := 0 }

/-- A state whose cache holds `warmEntry` for the filter Movie and nothing else. -/
def warmWorld : World :=
  { cache := fun k => if k = go "Movie" then some warmEntry else none
    requests := [], stdout := [] }

/-! ## Auxiliary lemmas -/

/-- Saturation does not change the comparison with 60 seconds. -/
theorem timeSince_lt_iff (now t : Int) :
    timeSince now t < 60 * Second ↔ now - t < 60 * Second := by
  have hmax : maxDuration = 9223372036854775807 := by norm_num [maxDuration]
  have hmin : minDuration = -9223372036854775808 := by norm_num [minDuration]
  unfold timeSince
  simp only [hmax, hmin, Second]
  by_cases h1 : now - t > 9223372036854775807
  · rw [if_pos h1]
    constructor
    · intro h; norm_num at h
    · intro h; omega
  · rw [if_neg h1]
    by_cases h2 : now - t < -9223372036854775808
    · rw [if_pos h2]
      constructor
      · intro _; omega
      · intro _; norm_num
    · rw [if_neg h2]

/-- A present entry younger than 60 seconds is the fresh entry. -/
theorem freshEntry_of_young (w : World) (now : Int) (filter : GoString) (c : cacheEntry)
    (hentry : w.cache filter = some c) (hage : now - c.Time < 60 * Second) :
    freshEntry w now filter = some c := by
  unfold freshEntry
  rw [hentry]
  simp [(timeSince_lt_iff now c.Time).2 hage]

/-- No entry, or an entry at least 60 seconds old, gives no fresh entry. -/
theorem freshEntry_of_stale (w : World) (now : Int) (filter : GoString)
    (hstale : w.cache filter = none ∨
      ∃ c, w.cache filter = some c ∧ 60 * Second ≤ now - c.Time) :
    freshEntry w now filter = none := by
  unfold freshEntry
  rcases hstale with h | ⟨c, h, hage⟩
  · rw [h]
  · rw [h]
    have : ¬ timeSince now c.Time < 60 * Second := by
      rw [timeSince_lt_iff]; exact not_lt.2 hage
    simp [this]

/-- The loop builds the list of the cards of the items, in order. -/
theorem buildCards_eq_map (g : Globals) (items : List JellyfinItem) :
    buildCards g items = items.map (cardOf g) := by
  unfold buildCards
  have key : ∀ (l : List JellyfinItem) (acc : List Card),
      l.foldl (fun out i => out ++ [cardOf g i]) acc = acc ++ l.map (cardOf g) := by
    intro l
    induction l with
    | nil => intro acc; simp
    | cons x xs ih => intro acc; simp [ih]
  simpa using key items []

/-- The refresh path when the user identifier is set, the request is accepted and
the exchange yields decoded items. -/
theorem refresh_decoded (g : Globals) (a : Ambient) (filter : GoString) (w : World)
    (items : List JellyfinItem)
    (huser : a.getenvUserID ≠ [])
    (hreq : a.newRequestOK (requestURL g a.getenvUserID filter) = true)
    (hexch : a.exchange (buildRequest g (requestURL g a.getenvUserID filter)) = .decoded items) :
    refresh g a filter w =
      (.returned (some (buildCards g items)) none,
       { cache := fun k => if k = filter then
            some ⟨some (buildCards g items), a.storeClock⟩ else w.cache k
         requests := w.requests ++ [buildRequest g (requestURL g a.getenvUserID filter)]
         stdout := w.stdout ++ [go "userID: " ++ a.getenvUserID ++ go "\n"] }) := by
  unfold refresh
  simp [huser, hreq, hexch]

/-- With a present entry younger than 60 seconds the call returns it and changes
nothing. -/
theorem fetchLatest_hit_of_entry (g : Globals) (a : Ambient) (filter : GoString) (w : World)
    (c : cacheEntry)
    (hentry : w.cache filter = some c)
    (hage : a.sinceClock - c.Time < 60 * Second) :
    fetchLatest g a filter w = (.returned c.Data none, w) := by
  unfold fetchLatest
  rw [freshEntry_of_young w a.sinceClock filter c hentry hage]

/-- The fresh entry depends on the world through its cache only. -/
theorem freshEntry_congr (w w' : World) (now : Int) (filter : GoString)
    (h : w'.cache = w.cache) : freshEntry w' now filter = freshEntry w now filter := by
  unfold freshEntry
  rw [h]

/-- The refresh path hands exactly the built request to the HTTP client, whatever
the exchange yields, once the user identifier is set and the request is built. -/
theorem refresh_requests (g : Globals) (a : Ambient) (filter : GoString) (w : World)
    (huser : a.getenvUserID ≠ [])
    (hreq : a.newRequestOK (requestURL g a.getenvUserID filter) = true) :
    (refresh g a filter w).2.requests
      = w.requests ++ [buildRequest g (requestURL g a.getenvUserID filter)] := by
  unfold refresh
  simp only [huser, hreq, if_false]
  cases a.exchange (buildRequest g (requestURL g a.getenvUserID filter)) <;> simp

/-- The refresh path with an empty user identifier. -/
theorem refresh_unset (g : Globals) (a : Ambient) (filter : GoString) (w : World)
    (huser : a.getenvUserID = []) :
    refresh g a filter w =
      (.returned none (some errUserIDUnset),
       { w with stdout := w.stdout ++ [go "userID: " ++ a.getenvUserID ++ go "\n"] }) := by
  unfold refresh
  simp [huser]

/-- The refresh path when `http.NewRequest` rejects the URL: the error is dropped
at line 69, the nil request is dereferenced at line 70, and the call panics
before anything reaches the HTTP client or the cache. -/
theorem refresh_panics (g : Globals) (a : Ambient) (filter : GoString) (w : World)
    (huser : a.getenvUserID ≠ [])
    (hreq : a.newRequestOK (requestURL g a.getenvUserID filter) = false) :
    (refresh g a filter w).1 = .panicked ∧
    (refresh g a filter w).2.requests = w.requests ∧
    (refresh g a filter w).2.cache = w.cache := by
  unfold refresh
  simp [huser, hreq]

/-- Every error return of the refresh path: nil list, cache untouched, and the
error is the configuration error, a failure of `Do`, or a failure of the decoder. -/
theorem refresh_error (g : Globals) (a : Ambient) (filter : GoString) (w w' : World)
    (cards : Slice Card) (err : GoError)
    (h : refresh g a filter w = (.returned cards (some err), w')) :
    cards = none ∧ w'.cache = w.cache ∧
    ((a.getenvUserID = [] ∧ err = errUserIDUnset) ∨
     (a.getenvUserID ≠ [] ∧
       a.exchange (buildRequest g (requestURL g a.getenvUserID filter)) = .doFailed err) ∨
     (a.getenvUserID ≠ [] ∧
       a.exchange (buildRequest g (requestURL g a.getenvUserID filter)) = .decodeFailed err)) := by
  unfold refresh at h
  by_cases huser : a.getenvUserID = []
  · simp only [huser, if_true, Prod.mk.injEq, Outcome.returned.injEq, Option.some.injEq] at h
    obtain ⟨⟨hc, he⟩, hw⟩ := h
    subst hw
    exact ⟨hc.symm, rfl, Or.inl ⟨huser, he.symm⟩⟩
  · simp only [huser, if_false] at h
    by_cases hreq : a.newRequestOK (requestURL g a.getenvUserID filter) = false
    · simp [hreq] at h
    · have hreq' : a.newRequestOK (requestURL g a.getenvUserID filter) = true := by
        simpa using hreq
      simp only [hreq', Bool.true_eq_false, if_false] at h
      cases hex : a.exchange (buildRequest g (requestURL g a.getenvUserID filter)) with
      | doFailed e =>
        simp only [hex, Prod.mk.injEq, Outcome.returned.injEq, Option.some.injEq] at h
        obtain ⟨⟨hc, he⟩, hw⟩ := h
        subst hw; subst he
        exact ⟨hc.symm, rfl, Or.inr (Or.inl ⟨huser, rfl⟩)⟩
      | decodeFailed e =>
        simp only [hex, Prod.mk.injEq, Outcome.returned.injEq, Option.some.injEq] at h
        obtain ⟨⟨hc, he⟩, hw⟩ := h
        subst hw; subst he
        exact ⟨hc.symm, rfl, Or.inr (Or.inr ⟨huser, rfl⟩)⟩
      | decoded items =>
        simp [hex] at h

/-- A card with a finite rating is encoded: the object holds every field that is
not skipped for being empty under `omitempty`. -/
theorem marshalCard_finite (c : Card) (hfin : c.Rating.isFinite = true) :
    marshalCard c = .ok (c.fields.filterMap fun (t, v) =>
      if t.omitempty && isEmptyValue v then none else some (t.key, v)) := by
  cases hr : c.Rating.eqZero <;> cases hy : c.Year <;> cases hc : c.ContentRating <;>
    simp [marshalCard, Card.fields, encodeFields, encodeValue, isEmptyValue, hfin, hr, hy, hc]

/-- A card whose rating is NaN or infinite is not encoded. -/
theorem marshalCard_nonfinite (c : Card) (hfin : c.Rating.isFinite = false) :
    marshalCard c = .error (unsupportedValue c.Rating) := by
  have hr : c.Rating.eqZero = false := by
    have hlt := c.Rating.bits.isLt
    simp only [Float64.isFinite, Float64.eqZero] at hfin ⊢
    norm_num at hfin hlt ⊢
    omega
  simp [marshalCard, Card.fields, encodeFields, encodeValue, isEmptyValue, hfin, hr]

/-! ## The freshness cache -/

/-- C1. Cache hit: when the cache holds an entry for the filter whose age (the
current clock reading minus the stored time) is below 60 seconds, `fetchLatest`
returns that entry's card list with a nil error, hands no request to the HTTP
client, and leaves the cache as it was. -/
theorem fetchLatest_cache_hit (g : Globals) (a : Ambient) (filter : GoString) (w : World)
    (c : cacheEntry)
    (hentry : w.cache filter = some c)
    (hage : a.sinceClock - c.Time < 60 * Second) :
    (fetchLatest g a filter w).1 = .returned c.Data none ∧
    (fetchLatest g a filter w).2.requests = w.requests ∧
    (fetchLatest g a filter w).2.cache = w.cache := by
  unfold fetchLatest
  rw [freshEntry_of_young w a.sinceClock filter c hentry hage]
  exact ⟨rfl, rfl, rfl⟩

/-- Instance of C1: 59 seconds after the entry of `warmWorld` was stored, with no
user identifier in the environment, the entry is served. -/
theorem fetchLatest_cache_hit_witness :
    warmWorld.cache (go "Movie") = some warmEntry ∧
    (ambientOf (59 * Second) (59 * Second) [] (.doFailed [])).sinceClock - warmEntry.Time
      < 60 * Second ∧
    (fetchLatest sampleGlobals (ambientOf (59 * Second) (59 * Second) [] (.doFailed []))
      (go "Movie") warmWorld).1 = .returned warmEntry.Data none ∧
    (fetchLatest sampleGlobals (ambientOf (59 * Second) (59 * Second) [] (.doFailed []))
      (go "Movie") warmWorld).2.requests = warmWorld.requests ∧
    (fetchLatest sampleGlobals (ambientOf (59 * Second) (59 * Second) [] (.doFailed []))
      (go "Movie") warmWorld).2.cache = warmWorld.cache :=
  ⟨by decide, by decide,
   fetchLatest_cache_hit sampleGlobals (ambientOf (59 * Second) (59 * Second) [] (.doFailed []))
     (go "Movie") warmWorld warmEntry (by decide) (by decide)⟩

/-- C2. Refresh on miss or stale: when the cache has no entry for the filter or
the entry is at least 60 seconds old, the user identifier is set, the request is
built and the exchange yields decoded items, `fetchLatest` hands exactly one
request to the HTTP client, returns the transformed card list with a nil error,
and the cache afterwards is the prior cache with the entry for the filter
replaced by (returned list, clock reading at the store); other keys keep their
entries. -/
theorem fetchLatest_refresh (g : Globals) (a : Ambient) (filter : GoString) (w : World)
    (items : List JellyfinItem)
    (hstale : w.cache filter = none ∨
      ∃ c, w.cache filter = some c ∧ 60 * Second ≤ a.sinceClock - c.Time)
    (huser : a.getenvUserID ≠ [])
    (hreq : a.newRequestOK (requestURL g a.getenvUserID filter) = true)
    (hexch : a.exchange (buildRequest g (requestURL g a.getenvUserID filter))
      = .decoded items) :
    (fetchLatest g a filter w).1 = .returned (some (items.map (cardOf g))) none ∧
    (fetchLatest g a filter w).2.requests
      = w.requests ++ [buildRequest g (requestURL g a.getenvUserID filter)] ∧
    (fetchLatest g a filter w).2.cache
      = Function.update w.cache filter (some ⟨some (items.map (cardOf g)), a.storeClock⟩) ∧
    (∀ k, k ≠ filter → (fetchLatest g a filter w).2.cache k = w.cache k) := by
  unfold fetchLatest
  rw [freshEntry_of_stale w a.sinceClock filter hstale]
  simp only [refresh_decoded g a filter w items huser hreq hexch, buildCards_eq_map]
  refine ⟨trivial, trivial, ?_, ?_⟩
  · funext k
    by_cases hk : k = filter
    · subst hk; simp
    · simp [hk]
  · intro k hk
    simp [hk]

/-- Instance of C2: 60 seconds after the entry of `warmWorld` was stored, a
refresh for the filter Movie that decodes one movie. -/
theorem fetchLatest_refresh_witness :
    (fetchLatest sampleGlobals
      (ambientOf (60 * Second) (61 * Second) (go "u1") (.decoded [movieItem]))
      (go "Movie") warmWorld).1
      = .returned (some ([movieItem].map (cardOf sampleGlobals))) none ∧
    (fetchLatest sampleGlobals
      (ambientOf (60 * Second) (61 * Second) (go "u1") (.decoded [movieItem]))
      (go "Movie") warmWorld).2.requests
      = warmWorld.requests ++ [buildRequest sampleGlobals
          (requestURL sampleGlobals (go "u1") (go "Movie"))] ∧
    (fetchLatest sampleGlobals
      (ambientOf (60 * Second) (61 * Second) (go "u1") (.decoded [movieItem]))
      (go "Movie") warmWorld).2.cache
      = Function.update warmWorld.cache (go "Movie")
          (some ⟨some ([movieItem].map (cardOf sampleGlobals)), 61 * Second⟩) ∧
    (∀ k, k ≠ go "Movie" → (fetchLatest sampleGlobals
      (ambientOf (60 * Second) (61 * Second) (go "u1") (.decoded [movieItem]))
      (go "Movie") warmWorld).2.cache k = warmWorld.cache k) :=
  fetchLatest_refresh sampleGlobals
    (ambientOf (60 * Second) (61 * Second) (go "u1") (.decoded [movieItem]))
    (go "Movie") warmWorld [movieItem]
    (Or.inr ⟨warmEntry, by decide, by decide⟩) (by decide) rfl rfl

/-- C3. Failure atomicity: when `fetchLatest` returns an error, the returned card
list is nil, the cache is exactly the cache before the call, and the error is the
configuration error (user identifier unset), a transport failure or a decode
failure. Consequently a later call is served the previously cached list when
that entry is still younger than 60 seconds, counted from its original store
time, and otherwise runs the refresh path again, handing one new request to the
HTTP client when the user identifier is set and the request is built. -/
theorem fetchLatest_error_atomic (g : Globals) (a : Ambient) (filter : GoString)
    (w w' : World) (cards : Slice Card) (err : GoError)
    (h : fetchLatest g a filter w = (.returned cards (some err), w')) :
    cards = none ∧ w'.cache = w.cache ∧
    ((a.getenvUserID = [] ∧ err = errUserIDUnset) ∨
     (a.getenvUserID ≠ [] ∧
       a.exchange (buildRequest g (requestURL g a.getenvUserID filter)) = .doFailed err) ∨
     (a.getenvUserID ≠ [] ∧
       a.exchange (buildRequest g (requestURL g a.getenvUserID filter)) = .decodeFailed err)) ∧
    (∀ (later : Ambient) (c : cacheEntry), w.cache filter = some c →
      later.sinceClock - c.Time < 60 * Second →
      fetchLatest g later filter w' = (.returned c.Data none, w')) ∧
    (∀ (later : Ambient),
      (w.cache filter = none ∨
        ∃ c, w.cache filter = some c ∧ 60 * Second ≤ later.sinceClock - c.Time) →
      fetchLatest g later filter w' = refresh g later filter w' ∧
      (later.getenvUserID ≠ [] →
        later.newRequestOK (requestURL g later.getenvUserID filter) = true →
        (fetchLatest g later filter w').2.requests
          = w'.requests ++ [buildRequest g (requestURL g later.getenvUserID filter)])) := by
  have hmiss : freshEntry w a.sinceClock filter = none := by
    cases hf : freshEntry w a.sinceClock filter with
    | none => rfl
    | some c => unfold fetchLatest at h; simp [hf] at h
  have href : refresh g a filter w = (.returned cards (some err), w') := by
    unfold fetchLatest at h
    simpa [hmiss] using h
  obtain ⟨hc, hcache, hkind⟩ := refresh_error g a filter w w' cards err href
  refine ⟨hc, hcache, hkind, ?_, ?_⟩
  · intro later c hentry hage
    unfold fetchLatest
    rw [freshEntry_congr w w' later.sinceClock filter hcache,
      freshEntry_of_young w later.sinceClock filter c hentry hage]
  · intro later hstale
    have hfetch : fetchLatest g later filter w' = refresh g later filter w' := by
      unfold fetchLatest
      rw [freshEntry_congr w w' later.sinceClock filter hcache,
        freshEntry_of_stale w later.sinceClock filter hstale]
    refine ⟨hfetch, ?_⟩
    intro huser hreq
    rw [hfetch]
    exact refresh_requests g later filter w' huser hreq

/-- Instance of C3: a transport failure 60 seconds after the entry of `warmWorld`
was stored. -/
theorem fetchLatest_error_atomic_witness :
    fetchLatest sampleGlobals
      (ambientOf (60 * Second) (61 * Second) (go "u1") (.doFailed (go "connection refused")))
      (go "Movie") warmWorld
      = (.returned none (some (go "connection refused")),
         { warmWorld with
           requests := [buildRequest sampleGlobals
             (requestURL sampleGlobals (go "u1") (go "Movie"))]
           stdout := [go "userID: u1\n"] }) ∧
    ({ warmWorld with
        requests := [buildRequest sampleGlobals
          (requestURL sampleGlobals (go "u1") (go "Movie"))]
        stdout := [go "userID: u1\n"] } : World).cache = warmWorld.cache :=
  ⟨rfl,
   (fetchLatest_error_atomic sampleGlobals
      (ambientOf (60 * Second) (61 * Second) (go "u1") (.doFailed (go "connection refused")))
      (go "Movie") warmWorld _ none (go "connection refused") rfl).2.1⟩

/-- C4. Repeated call within the TTL: when a first call misses the cache (no
entry, or one at least 60 seconds old), fetches successfully and stores its
result, a second call made less than 60 seconds after that store returns the
same card list with a nil error, and the two calls together hand exactly one
request to the HTTP client. -/
theorem fetchLatest_twice_within_ttl (g : Globals) (first second : Ambient)
    (filter : GoString) (w : World) (items : List JellyfinItem)
    (hstale : w.cache filter = none ∨
      ∃ c, w.cache filter = some c ∧ 60 * Second ≤ first.sinceClock - c.Time)
    (huser : first.getenvUserID ≠ [])
    (hreq : first.newRequestOK (requestURL g first.getenvUserID filter) = true)
    (hexch : first.exchange (buildRequest g (requestURL g first.getenvUserID filter))
      = .decoded items)
    (hsoon : second.sinceClock - first.storeClock < 60 * Second) :
    (fetchLatest g first filter w).1 = .returned (some (items.map (cardOf g))) none ∧
    (fetchLatest g second filter (fetchLatest g first filter w).2).1
      = (fetchLatest g first filter w).1 ∧
    (fetchLatest g second filter (fetchLatest g first filter w).2).2.requests
      = w.requests ++ [buildRequest g (requestURL g first.getenvUserID filter)] := by
  have hfirst : fetchLatest g first filter w = refresh g first filter w := by
    unfold fetchLatest
    rw [freshEntry_of_stale w first.sinceClock filter hstale]
  rw [hfirst, refresh_decoded g first filter w items huser hreq hexch, buildCards_eq_map]
  have hhit := fetchLatest_hit_of_entry g second filter
    { cache := fun k => if k = filter then
        some ⟨some (items.map (cardOf g)), first.storeClock⟩ else w.cache k
      requests := w.requests ++ [buildRequest g (requestURL g first.getenvUserID filter)]
      stdout := w.stdout ++ [go "userID: " ++ first.getenvUserID ++ go "\n"] }
    ⟨some (items.map (cardOf g)), first.storeClock⟩ (by simp) hsoon
  simp only [hhit]
  exact ⟨trivial, trivial, trivial⟩

/-- Instance of C4: a first call on the empty cache at time 0 that stores at 1
second, and a second call 59 seconds after the store, during which the upstream
is down. -/
theorem fetchLatest_twice_within_ttl_witness :
    (fetchLatest sampleGlobals (ambientOf 0 Second (go "u1") (.decoded [movieItem, episodeItem]))
      (go "") emptyWorld).1
      = .returned (some ([movieItem, episodeItem].map (cardOf sampleGlobals))) none ∧
    (fetchLatest sampleGlobals (ambientOf (60 * Second) (60 * Second) [] (.doFailed []))
      (go "")
      (fetchLatest sampleGlobals
        (ambientOf 0 Second (go "u1") (.decoded [movieItem, episodeItem]))
        (go "") emptyWorld).2).1
      = (fetchLatest sampleGlobals
          (ambientOf 0 Second (go "u1") (.decoded [movieItem, episodeItem]))
          (go "") emptyWorld).1 ∧
    (fetchLatest sampleGlobals (ambientOf (60 * Second) (60 * Second) [] (.doFailed []))
      (go "")
      (fetchLatest sampleGlobals
        (ambientOf 0 Second (go "u1") (.decoded [movieItem, episodeItem]))
        (go "") emptyWorld).2).2.requests
      = emptyWorld.requests ++ [buildRequest sampleGlobals
          (requestURL sampleGlobals (go "u1") (go ""))] :=
  fetchLatest_twice_within_ttl sampleGlobals
    (ambientOf 0 Second (go "u1") (.decoded [movieItem, episodeItem]))
    (ambientOf (60 * Second) (60 * Second) [] (.doFailed []))
    (go "") emptyWorld [movieItem, episodeItem]
    (Or.inl rfl) (by decide) rfl rfl (by decide)

/-! ## The transformation -/

/-- C5. The card list mirrors the upstream list: the list returned by a refresh
that decoded `items` has the length of `items`, and for every position `k` the
card at `k` is the card of the item at `k`, a function of that item and the
configuration alone, with title the item name, subtitle the item type, href the
base followed by "/web/index.html#!/details?id=" and the item's own Id, rating
the CommunityRating and content rating the OfficialRating. -/
theorem fetchLatest_cards_mirror_items (g : Globals) (a : Ambient) (filter : GoString)
    (w : World) (items : List JellyfinItem)
    (hstale : w.cache filter = none ∨
      ∃ c, w.cache filter = some c ∧ 60 * Second ≤ a.sinceClock - c.Time)
    (huser : a.getenvUserID ≠ [])
    (hreq : a.newRequestOK (requestURL g a.getenvUserID filter) = true)
    (hexch : a.exchange (buildRequest g (requestURL g a.getenvUserID filter))
      = .decoded items) :
    ∃ cards : List Card,
      (fetchLatest g a filter w).1 = .returned (some cards) none ∧
      cards.length = items.length ∧
      ∀ (k : Nat) (i : JellyfinItem), items[k]? = some i →
        ∃ c : Card, cards[k]? = some c ∧ c = cardOf g i ∧
          c.Title = i.Name ∧ c.Subtitle = i.Type_ ∧
          c.Href = g.jellyfin ++ go "/web/index.html#!/details?id=" ++ i.Id ∧
          c.Rating = i.CommunityRating ∧ c.ContentRating = i.OfficialRating := by
  refine ⟨buildCards g items, ?_, ?_, ?_⟩
  · unfold fetchLatest
    rw [freshEntry_of_stale w a.sinceClock filter hstale,
      refresh_decoded g a filter w items huser hreq hexch]
  · rw [buildCards_eq_map, List.length_map]
  · intro k i hk
    refine ⟨cardOf g i, ?_, rfl, rfl, rfl, rfl, rfl, rfl⟩
    rw [buildCards_eq_map, List.getElem?_map, hk]
    rfl

/-- Instance of C5: a movie followed by an episode, fetched with the empty filter
on the empty cache. -/
theorem fetchLatest_cards_mirror_items_witness :
    ∃ cards : List Card,
      (fetchLatest sampleGlobals
        (ambientOf 0 Second (go "u1") (.decoded [movieItem, episodeItem]))
        (go "") emptyWorld).1 = .returned (some cards) none ∧
      cards.length = [movieItem, episodeItem].length ∧
      ∀ (k : Nat) (i : JellyfinItem), [movieItem, episodeItem][k]? = some i →
        ∃ c : Card, cards[k]? = some c ∧ c = cardOf sampleGlobals i ∧
          c.Title = i.Name ∧ c.Subtitle = i.Type_ ∧
          c.Href = sampleGlobals.jellyfin ++ go "/web/index.html#!/details?id=" ++ i.Id ∧
          c.Rating = i.CommunityRating ∧ c.ContentRating = i.OfficialRating :=
  fetchLatest_cards_mirror_items sampleGlobals
    (ambientOf 0 Second (go "u1") (.decoded [movieItem, episodeItem]))
    (go "") emptyWorld [movieItem, episodeItem] (Or.inl rfl) (by decide) rfl rfl

/-- C6. Poster image selection: the image URL of the card of an item is the base
followed by "/Items/", the image identifier, "/Images/Primary" and the size
suffix as configured; the image identifier is the SeriesId when the type is
exactly "Episode" and the SeriesId is non-empty, and the item's own Id in every
other case. For Type "Episode", SeriesId "S1" and Id "E1" the URL is built from
S1 and differs from the one built from E1. -/
theorem cardOf_image (g : Globals) (i : JellyfinItem) :
    (i.Type_ = go "Episode" ∧ i.SeriesId ≠ [] →
      (cardOf g i).Image
        = g.jellyfin ++ go "/Items/" ++ i.SeriesId ++ go "/Images/Primary" ++ g.imageSize) ∧
    (¬ (i.Type_ = go "Episode" ∧ i.SeriesId ≠ []) →
      (cardOf g i).Image
        = g.jellyfin ++ go "/Items/" ++ i.Id ++ go "/Images/Primary" ++ g.imageSize) ∧
    (i.Type_ = go "Episode" → i.SeriesId = go "S1" → i.Id = go "E1" →
      (cardOf g i).Image = g.jellyfin ++ go "/Items/S1/Images/Primary" ++ g.imageSize ∧
      (cardOf g i).Image ≠ g.jellyfin ++ go "/Items/E1/Images/Primary" ++ g.imageSize) := by
  have hpos : i.Type_ = go "Episode" ∧ i.SeriesId ≠ [] →
      (cardOf g i).Image
        = g.jellyfin ++ go "/Items/" ++ i.SeriesId ++ go "/Images/Primary" ++ g.imageSize := by
    intro h
    simp only [cardOf, imageIDOf, if_pos h]
  refine ⟨hpos, ?_, ?_⟩
  · intro h
    simp only [cardOf, imageIDOf, if_neg h]
  · intro ht hs hid
    have hlit : go "/Items/" ++ go "S1" ++ go "/Images/Primary"
        = go "/Items/S1/Images/Primary" := by decide
    have himg : (cardOf g i).Image
        = g.jellyfin ++ go "/Items/S1/Images/Primary" ++ g.imageSize := by
      rw [hpos ⟨ht, by rw [hs]; decide⟩, hs, ← hlit]
      simp only [List.append_assoc]
    refine ⟨himg, ?_⟩
    rw [himg]
    intro heq
    have h2 := List.append_cancel_right (List.append_cancel_left
      (by simpa only [List.append_assoc] using heq))
    revert h2
    decide

/-- Instance of C6 on the sample episode of series S1. -/
theorem cardOf_image_witness :
    (cardOf sampleGlobals episodeItem).Image
      = go "http://jf:8096/Items/S1/Images/Primary?maxWidth=300" ∧
    (cardOf sampleGlobals movieItem).Image
      = go "http://jf:8096/Items/M1/Images/Primary?maxWidth=300" := by
  refine ⟨?_, ?_⟩
  · rw [(cardOf_image sampleGlobals episodeItem).1 (by decide)]
    decide
  · rw [(cardOf_image sampleGlobals movieItem).2.1 (by decide)]
    decide

/-- C7. Year derivation: when the PremiereDate has length at least 4 (length and
positions counted in bytes, as Go's `len` and slicing do), the year of the card
is the first 4 bytes of the PremiereDate, so a present year always has length 4;
otherwise the year is empty. PremiereDate "2019-08-01" gives year "2019", and an
empty PremiereDate gives the empty (absent) year. -/
theorem cardOf_year (g : Globals) (i : JellyfinItem) :
    (4 ≤ i.PremiereDate.length →
      (cardOf g i).Year = i.PremiereDate.take 4 ∧ (cardOf g i).Year.length = 4) ∧
    (i.PremiereDate.length < 4 → (cardOf g i).Year = []) ∧
    ((cardOf g i).Year ≠ [] → (cardOf g i).Year.length = 4) ∧
    (i.PremiereDate = go "2019-08-01" → (cardOf g i).Year = go "2019") ∧
    (i.PremiereDate = [] → (cardOf g i).Year = []) := by
  have hlong : 4 ≤ i.PremiereDate.length →
      (cardOf g i).Year = i.PremiereDate.take 4 ∧ (cardOf g i).Year.length = 4 := by
    intro h
    have hy : (cardOf g i).Year = i.PremiereDate.take 4 := by
      simp only [cardOf, yearOf, ge_iff_le, if_pos h]
    exact ⟨hy, by rw [hy, List.length_take]; omega⟩
  have hshort : i.PremiereDate.length < 4 → (cardOf g i).Year = [] := by
    intro h
    simp only [cardOf, yearOf, ge_iff_le, if_neg (not_le.2 h)]
  refine ⟨hlong, hshort, ?_, ?_, ?_⟩
  · intro hne
    rcases Nat.lt_or_ge i.PremiereDate.length 4 with h | h
    · exact absurd (hshort h) hne
    · exact (hlong h).2
  · intro h
    rw [(hlong (by rw [h]; decide)).1, h]
    decide
  · intro h
    exact hshort (by rw [h]; decide)

/-- Instance of C7 on the sample movie, whose PremiereDate is a full timestamp. -/
theorem cardOf_year_witness :
    (cardOf sampleGlobals movieItem).Year = go "1995" ∧
    (cardOf sampleGlobals episodeItem).Year = [] := by
  refine ⟨?_, ?_⟩
  · rw [((cardOf_year sampleGlobals movieItem).1 (by decide)).1]
    decide
  · exact (cardOf_year sampleGlobals episodeItem).2.1 (by decide)

/-! ## The upstream client -/

/-- C8, as stated, fails on a cache hit: with the user identifier unset, a call
59 seconds after the entry of `warmWorld` was stored returns the cached card
list with a nil error instead of the configuration error. -/
theorem fetchLatest_unset_user_served_from_cache :
    (ambientOf (59 * Second) (59 * Second) [] (.doFailed [])).getenvUserID = [] ∧
    (fetchLatest sampleGlobals (ambientOf (59 * Second) (59 * Second) [] (.doFailed []))
      (go "Movie") warmWorld).1
      = .returned (some [cardOf sampleGlobals movieItem]) none ∧
    (fetchLatest sampleGlobals (ambientOf (59 * Second) (59 * Second) [] (.doFailed []))
      (go "Movie") warmWorld).1
      ≠ .returned none (some errUserIDUnset) := by
  refine ⟨rfl, ?_, ?_⟩
  · rw [fetchLatest_hit_of_entry sampleGlobals _ (go "Movie") warmWorld warmEntry
      (by decide) (by decide)]
    rfl
  · rw [fetchLatest_hit_of_entry sampleGlobals _ (go "Movie") warmWorld warmEntry
      (by decide) (by decide)]
    intro h
    cases h

/-- C8, amended. Config error: for every filter and every cache state that holds
no entry younger than 60 seconds for the filter, when the user identifier is
unset or empty, `fetchLatest` returns the configuration error with a nil card
list, hands no request to the HTTP client and leaves the cache as it was. -/
theorem fetchLatest_unset_user_on_miss (g : Globals) (a : Ambient) (filter : GoString)
    (w : World)
    (hstale : w.cache filter = none ∨
      ∃ c, w.cache filter = some c ∧ 60 * Second ≤ a.sinceClock - c.Time)
    (huser : a.getenvUserID = []) :
    (fetchLatest g a filter w).1 = .returned none (some errUserIDUnset) ∧
    (fetchLatest g a filter w).2.requests = w.requests ∧
    (fetchLatest g a filter w).2.cache = w.cache := by
  unfold fetchLatest
  rw [freshEntry_of_stale w a.sinceClock filter hstale]
  simp only [refresh_unset g a filter w huser]
  exact ⟨trivial, trivial, trivial⟩

/-- Instance of amended C8: the user identifier is unset on the empty cache, and
again 60 seconds after the entry of `warmWorld` was stored. -/
theorem fetchLatest_unset_user_on_miss_witness :
    ((fetchLatest sampleGlobals (ambientOf 0 0 [] (.decoded [movieItem]))
        (go "Series") emptyWorld).1 = .returned none (some errUserIDUnset) ∧
      (fetchLatest sampleGlobals (ambientOf 0 0 [] (.decoded [movieItem]))
        (go "Series") emptyWorld).2.requests = emptyWorld.requests ∧
      (fetchLatest sampleGlobals (ambientOf 0 0 [] (.decoded [movieItem]))
        (go "Series") emptyWorld).2.cache = emptyWorld.cache) ∧
    ((fetchLatest sampleGlobals (ambientOf (60 * Second) 0 [] (.decoded [movieItem]))
        (go "Movie") warmWorld).1 = .returned none (some errUserIDUnset) ∧
      (fetchLatest sampleGlobals (ambientOf (60 * Second) 0 [] (.decoded [movieItem]))
        (go "Movie") warmWorld).2.requests = warmWorld.requests ∧
      (fetchLatest sampleGlobals (ambientOf (60 * Second) 0 [] (.decoded [movieItem]))
        (go "Movie") warmWorld).2.cache = warmWorld.cache) :=
  ⟨fetchLatest_unset_user_on_miss sampleGlobals (ambientOf 0 0 [] (.decoded [movieItem]))
      (go "Series") emptyWorld (Or.inl rfl) rfl,
   fetchLatest_unset_user_on_miss sampleGlobals
      (ambientOf (60 * Second) 0 [] (.decoded [movieItem]))
      (go "Movie") warmWorld (Or.inr ⟨warmEntry, by decide, by decide⟩) rfl⟩

/-- C9. Upstream request shape: on a call that reaches the upstream (no entry
younger than 60 seconds, user identifier non-empty, request built), exactly one
request is handed to the HTTP client, whatever the exchange yields; its method
is GET, its URL is the base followed by "/Users/", the user identifier and
"/Items/Latest?Limit=20", followed by "&IncludeItemTypes=" and the filter exactly
when the filter is non-empty, and its header map holds the configured token
under X-Emby-Token. -/
theorem fetchLatest_request_shape (g : Globals) (a : Ambient) (filter : GoString)
    (w : World)
    (hstale : w.cache filter = none ∨
      ∃ c, w.cache filter = some c ∧ 60 * Second ≤ a.sinceClock - c.Time)
    (huser : a.getenvUserID ≠ [])
    (hreq : a.newRequestOK (requestURL g a.getenvUserID filter) = true) :
    ∃ r : Request,
      (fetchLatest g a filter w).2.requests = w.requests ++ [r] ∧
      r.method = go "GET" ∧
      (filter = [] →
        r.url = g.jellyfin ++ go "/Users/" ++ a.getenvUserID ++ go "/Items/Latest?Limit=20") ∧
      (filter ≠ [] →
        r.url = g.jellyfin ++ go "/Users/" ++ a.getenvUserID ++ go "/Items/Latest?Limit=20"
          ++ go "&IncludeItemTypes=" ++ filter) ∧
      r.header = [(go "X-Emby-Token", g.token)] := by
  refine ⟨buildRequest g (requestURL g a.getenvUserID filter), ?_, rfl, ?_, ?_, rfl⟩
  · unfold fetchLatest
    rw [freshEntry_of_stale w a.sinceClock filter hstale]
    exact refresh_requests g a filter w huser hreq
  · intro hf
    simp only [buildRequest, requestURL, hf, ne_eq, not_true_eq_false, if_false]
  · intro hf
    simp only [buildRequest, requestURL, ne_eq, hf, not_false_eq_true, if_true]

/-- Instance of C9: the request for the filter Movie and the user u1, during a
transport failure. -/
theorem fetchLatest_request_shape_witness :
    ∃ r : Request,
      (fetchLatest sampleGlobals (ambientOf 0 0 (go "u1") (.doFailed (go "timeout")))
        (go "Movie") emptyWorld).2.requests = emptyWorld.requests ++ [r] ∧
      r.method = go "GET" ∧
      (go "Movie" = [] →
        r.url = sampleGlobals.jellyfin ++ go "/Users/"
          ++ (ambientOf 0 0 (go "u1") (.doFailed (go "timeout"))).getenvUserID
          ++ go "/Items/Latest?Limit=20") ∧
      (go "Movie" ≠ [] →
        r.url = sampleGlobals.jellyfin ++ go "/Users/"
          ++ (ambientOf 0 0 (go "u1") (.doFailed (go "timeout"))).getenvUserID
          ++ go "/Items/Latest?Limit=20" ++ go "&IncludeItemTypes=" ++ go "Movie") ∧
      r.header = [(go "X-Emby-Token", sampleGlobals.token)] :=
  fetchLatest_request_shape sampleGlobals (ambientOf 0 0 (go "u1") (.doFailed (go "timeout")))
    (go "Movie") emptyWorld (Or.inl rfl) (by decide) rfl

/-! ## JSON output -/

/-- C10. Card JSON shape: for every card the encoder can write (the rating is
finite, as every rating decoded from JSON is), the JSON object has the keys
title, subtitle, image and href, whatever their values; it has the key rating
exactly when the rating is not equal to 0, the key year exactly when the year is
non-empty, and the key contentRating exactly when the content rating is
non-empty. A rating of 0 gives no rating key; a rating of 8.5 gives the member
rating with that number. -/
theorem marshalCard_keys (c : Card) (hfin : c.Rating.isFinite = true) :
    ∃ obj : List (GoString × JSONValue),
      marshalCard c = .ok obj ∧
      go "title" ∈ jsonKeys obj ∧ go "subtitle" ∈ jsonKeys obj ∧
      go "image" ∈ jsonKeys obj ∧ go "href" ∈ jsonKeys obj ∧
      (go "rating" ∈ jsonKeys obj ↔ c.Rating.eqZero = false) ∧
      (go "year" ∈ jsonKeys obj ↔ c.Year ≠ []) ∧
      (go "contentRating" ∈ jsonKeys obj ↔ c.ContentRating ≠ []) ∧
      (c.Rating = Float64.zero → go "rating" ∉ jsonKeys obj) ∧
      (c.Rating = Float64.eightAndHalf →
        (go "rating", JSONValue.num Float64.eightAndHalf) ∈ obj) := by
  refine ⟨_, marshalCard_finite c hfin, ?_⟩
  have hkeys : jsonKeys (c.fields.filterMap fun (t, v) =>
      if t.omitempty && isEmptyValue v then none else some (t.key, v))
      = [go "title", go "subtitle", go "image", go "href"]
        ++ (if c.Rating.eqZero then [] else [go "rating"])
        ++ (if c.Year = [] then [] else [go "year"])
        ++ (if c.ContentRating = [] then [] else [go "contentRating"]) := by
    cases hr : c.Rating.eqZero <;> cases hy : c.Year <;> cases hc : c.ContentRating <;>
      simp [jsonKeys, Card.fields, isEmptyValue, hr, hy, hc]
  rw [hkeys]
  refine ⟨?_, ?_, ?_, ?_, ?_, ?_, ?_, ?_, ?_⟩
  · simp
  · simp
  · simp
  · simp
  · cases hr : c.Rating.eqZero <;> cases hy : c.Year <;> cases hc : c.ContentRating <;>
      simp <;> decide
  · cases hr : c.Rating.eqZero <;> cases hy : c.Year <;> cases hc : c.ContentRating <;>
      simp <;> decide
  · cases hr : c.Rating.eqZero <;> cases hy : c.Year <;> cases hc : c.ContentRating <;>
      simp <;> decide
  · intro hz
    have hzero : c.Rating.eqZero = true := by rw [hz]; decide
    cases hy : c.Year <;> cases hc : c.ContentRating <;> simp [hzero] <;> decide
  · intro hh
    have hhalf : Float64.eightAndHalf.eqZero = false := by decide
    simp [Card.fields, isEmptyValue, hh, hhalf]

/-- Instance of C10 on the cards of the sample movie (rating 8.5). -/
theorem marshalCard_keys_witness :
    (cardOf sampleGlobals movieItem).Rating.isFinite = true ∧
    ∃ obj : List (GoString × JSONValue),
      marshalCard (cardOf sampleGlobals movieItem) = .ok obj ∧
      go "title" ∈ jsonKeys obj ∧ go "subtitle" ∈ jsonKeys obj ∧
      go "image" ∈ jsonKeys obj ∧ go "href" ∈ jsonKeys obj ∧
      (go "rating" ∈ jsonKeys obj ↔ (cardOf sampleGlobals movieItem).Rating.eqZero = false) ∧
      (go "year" ∈ jsonKeys obj ↔ (cardOf sampleGlobals movieItem).Year ≠ []) ∧
      (go "contentRating" ∈ jsonKeys obj
        ↔ (cardOf sampleGlobals movieItem).ContentRating ≠ []) ∧
      ((cardOf sampleGlobals movieItem).Rating = Float64.zero → go "rating" ∉ jsonKeys obj) ∧
      ((cardOf sampleGlobals movieItem).Rating = Float64.eightAndHalf →
        (go "rating", JSONValue.num Float64.eightAndHalf) ∈ obj) :=
  ⟨by decide, marshalCard_keys (cardOf sampleGlobals movieItem) (by decide)⟩

end Jellyfin
